import Mathlib

/-!
# Verification of the vexo Adaptive Autoplay & Discovery Queue Engine

Shallow embedding of the engine's data model and operations, translated from
the Python source:

* `src/cogs/music.py` — `Song`, `GuildMusicState`, `_refill_autoplay_buffer`,
  `play_next`, `_play_song`;
* `src/utils/discovery.py` — `build_user_slots` tier counts,
  `_temporal_weight`, `allocate_queue`, `_interleave_slots`, `get_next_songs`;
* `src/config.py` — the discovery configuration defaults.

Conventions: Python lists become `List`, dicts used as records become
structures, `None` becomes `Option`, awaited external calls (database,
track resolver, discovery engine) become explicit environment parameters,
and a call that may raise becomes `Except Unit`.  Discord handles held on
the state (`voice_client`, `text_channel`, `now_playing_message`,
`prefetched_source`) are opaque external objects; the model keeps only the
information the engine branches on (whether a voice client is present).
The float field `volume` is not involved in any modelled branch and is
omitted.
-/

namespace Vexo

/-- `Song` dataclass from `src/cogs/music.py` (lines 54-62). -/
structure Song where
  title : String
  url : String
  webpage_url : String
  duration : Nat
  thumbnail : Option String := none
  author : String := "Unknown"
deriving DecidableEq, Repr

/-- The `loop_mode` field of `GuildMusicState`: one of `"off"`, `"song"`,
`"queue"`. -/
inductive LoopMode where
  | off
  | song
  | queue
deriving DecidableEq, Repr

/-- `GuildMusicState` dataclass from `src/cogs/music.py` (lines 65-98).
`has_voice_client` models whether the `voice_client` field is non-`None`
(the only fact about it the modelled operations branch on). -/
structure GuildMusicState where
  guild_id : Nat := 0
  queue : List Song := []
  current : Option Song := none
  loop_mode : LoopMode := .off
  is_24_7 : Bool := false
  is_autoplay : Bool := true
  has_voice_client : Bool := false
  autoplay_visible : List Song := []
  autoplay_hidden : List Song := []
  is_fetching_autoplay : Bool := false
  is_channel_status : Bool := false
  max_duration : Nat := 0
  prefetched_song : Option Song := none
deriving DecidableEq, Repr

/-- The `total_autoplay` property of `GuildMusicState`:
`autoplay_visible + autoplay_hidden`. -/
def GuildMusicState.total_autoplay (st : GuildMusicState) : List Song :=
  st.autoplay_visible ++ st.autoplay_hidden

/-- A recommendation slot dict as produced by the discovery engine
(`_make_slot` / `_pick_comfort` in `src/utils/discovery.py`): keys
`artist`, `song`, `url`, `user_id`, `slot_type`, `reason`, `matched_song`. -/
structure Slot where
  artist : String
  song : String
  url : String
  user_id : Nat
  slot_type : String
  reason : String
  matched_song : Option String := none
deriving DecidableEq, Repr

/-- Conversion of a discovery track dict into a `Song`, as done in
`_refill_autoplay_buffer` (music.py lines 346-354): `title = track['song']`,
`url = webpage_url = track['url']`, `duration = 0`, `author = track['artist']`. -/
def slotToSong (t : Slot) : Song :=
  { title := t.song
    url := t.url
    webpage_url := t.url
    duration := 0
    thumbnail := none
    author := t.artist }

/-- `DiscoveryEngine.get_next_songs` (discovery.py lines 555-561): wraps
`allocate_queue` and returns `(public + hidden)[:count]`.  The allocator's
output `public + hidden` is supplied by the environment. -/
def getNextSongs (allocated : List Slot) (count : Nat) : List Slot :=
  allocated.take count

/-- Environment of one `_refill_autoplay_buffer` run: the results of the
awaited external calls.  `alloc` is the discovery allocation backing
`get_next_songs` (`.error` models `get_next_songs` raising, which the
body's `except Exception` catches); `fallbackSongs` is the result of
`YTDLSource.from_playlist` on the fallback playlist (`.error` models it
raising, caught by the inner `except`); `fallbackConfigured` models
`Config.FALLBACK_PLAYLIST` being non-`None`. -/
structure RefillEnv where
  alloc : Except Unit (List Slot)
  fallbackSongs : Except Unit (List Song)
  fallbackConfigured : Bool

/-- Step 2 of `_refill_autoplay_buffer` (music.py lines 346-364): for each
recommended song, skip it if its `url` already occurs in
`queue + autoplay_visible + autoplay_hidden` (the check recomputes
`state.queue + state.total_autoplay` on every iteration, so songs appended
earlier in the same loop are seen), else append to `autoplay_visible` while
it has fewer than 5 entries, otherwise to `autoplay_hidden`. -/
def addRecs (queue : List Song) :
    List Song → List Song → List Song → List Song × List Song
  | vis, hid, [] => (vis, hid)
  | vis, hid, song :: rest =>
    if (queue ++ vis ++ hid).any (fun s => s.url == song.url) then
      addRecs queue vis hid rest
    else if vis.length < 5 then
      addRecs queue (vis ++ [song]) hid rest
    else
      addRecs queue vis (hid ++ [song]) rest

/-- Step 3 of `_refill_autoplay_buffer` (music.py lines 371-382): for each
fallback-playlist song, skip it if its `url` or `webpage_url` matches an
existing entry, else fill `autoplay_visible` up to 5, then `autoplay_hidden`
up to 5, and `break` once both are full. -/
def addFallback (queue : List Song) :
    List Song → List Song → List Song → List Song × List Song
  | vis, hid, [] => (vis, hid)
  | vis, hid, ps :: rest =>
    if (queue ++ vis ++ hid).any
        (fun s => s.url == ps.url || s.webpage_url == ps.webpage_url) then
      addFallback queue vis hid rest
    else if vis.length < 5 then
      addFallback queue (vis ++ [ps]) hid rest
    else if hid.length < 5 then
      addFallback queue vis (hid ++ [ps]) rest
    else
      (vis, hid)

/-- The `try` body of `_refill_autoplay_buffer` (music.py lines 334-386),
as a function of the request queue and the two buffers:
`total_needed = 10 - len(total_autoplay)` with an early return when
nothing is needed; otherwise fetch `total_needed` recommendations
(`get_next_songs`) and fill with `addRecs`; then, if
`still_needed = (5 - len(visible)) + (5 - len(hidden))` is positive and a
fallback playlist is configured, top up with `addFallback` (a failure of
the playlist fetch is caught and contributes nothing).  `total_needed` and
`still_needed` are Python ints, hence modelled in `ℤ`. -/
def refillBuffers (queue vis hid : List Song) (env : RefillEnv) :
    List Song × List Song :=
  let totalNeeded : ℤ := 10 - (vis ++ hid).length
  if totalNeeded ≤ 0 then (vis, hid)
  else
    match env.alloc with
    | .error _ => (vis, hid)
    | .ok allocated =>
      let step2 :=
        addRecs queue vis hid
          ((getNextSongs allocated totalNeeded.toNat).map slotToSong)
      let stillNeeded : ℤ :=
        (5 - (step2.1.length : ℤ)) + (5 - (step2.2.length : ℤ))
      if 0 < stillNeeded ∧ env.fallbackConfigured then
        match env.fallbackSongs with
        | .error _ => step2
        | .ok playlistSongs => addFallback queue step2.1 step2.2 playlistSongs
      else step2

/-- `_refill_autoplay_buffer` (music.py lines 325-391).  Returns the session
state when the function returns.  The entry guard returns unchanged when
`is_fetching_autoplay` is set or no voice client exists; otherwise the flag
is set, the body `refillBuffers` runs inside `try ... except Exception ...
finally: state.is_fetching_autoplay = False`, so the call always ends with
the flag cleared and the buffers as `refillBuffers` leaves them. -/
def refillAutoplayBuffer (st : GuildMusicState) (env : RefillEnv) :
    GuildMusicState :=
  if st.is_fetching_autoplay || !st.has_voice_client then st
  else
    let r := refillBuffers st.queue st.autoplay_visible st.autoplay_hidden env
    { st with
        autoplay_visible := r.1
        autoplay_hidden := r.2
        is_fetching_autoplay := false }

/-! ## Playback state machine (`play_next`, `_play_song`) -/

/-- The action `play_next` (music.py lines 483-553) takes after its
synchronous state mutations: start `_play_song` on a chosen song, schedule
the emergency-refill coroutine `wait_and_play`, or end the session
(set `current = None` and disconnect unless 24/7 mode holds the
connection). -/
inductive NextAction where
  | playSongAct (s : Song)
  | emergencyRefill
  | sessionEnd
deriving DecidableEq, Repr

/-- The duration pre-filter of the autoplay branch of `play_next`
(music.py line 516): a candidate is skipped when
`max_duration > 0 and candidate.duration > 0 and candidate.duration > max_duration`. -/
def durFiltered (maxDur : Nat) (s : Song) : Bool :=
  decide (0 < maxDur) && decide (0 < s.duration) && decide (maxDur < s.duration)

/-- The `while state.autoplay_visible and next_song is None` loop of
`play_next` (music.py lines 513-526): pop the head of `autoplay_visible`;
if the duration pre-filter rejects it, `continue` (no rotation); otherwise
accept it and, if `autoplay_hidden` is non-empty, pop its head and append it
to `autoplay_visible`.  Returns (chosen song if any, final visible, final
hidden). -/
def autoplayLoop (maxDur : Nat) :
    List Song → List Song → Option Song × List Song × List Song
  | [], hid => (none, [], hid)
  | c :: vs, hid =>
    if durFiltered maxDur c then autoplayLoop maxDur vs hid
    else
      match hid with
      | [] => (some c, vs, [])
      | h :: hs => (some c, vs ++ [h], hs)

/-- The append performed when `loop_mode == "queue"` and a current track
exists (music.py lines 502-503). -/
def loopQueueAppend (st : GuildMusicState) : GuildMusicState :=
  match st.loop_mode, st.current with
  | .queue, some c => { st with queue := st.queue ++ [c] }
  | _, _ => st

/-- `play_next` (music.py lines 483-553): the per-session advance
algorithm.  Returns the session state after `play_next`'s own synchronous
mutations together with the action it hands off (history recording and the
thread-marshalling `run_coroutine_threadsafe` calls are external effects).
Order of precedence: `loop_mode == "song"` replays `current`;
`loop_mode == "queue"` re-appends `current` to the request queue; a
non-empty request queue wins over autoplay; otherwise, with autoplay
enabled, the visible buffer is scanned by `autoplayLoop`, and if it yields
nothing the emergency-refill coroutine is scheduled; with autoplay disabled
the session ends (disconnecting unless `is_24_7`). -/
def playNext (st : GuildMusicState) : GuildMusicState × NextAction :=
  match st.loop_mode, st.current with
  | .song, some c => (st, .playSongAct c)
  | _, _ =>
    let st1 := loopQueueAppend st
    match st1.queue with
    | n :: rest => ({ st1 with queue := rest }, .playSongAct n)
    | [] =>
      if st1.is_autoplay then
        let r := autoplayLoop st1.max_duration st1.autoplay_visible st1.autoplay_hidden
        let st2 := { st1 with autoplay_visible := r.2.1, autoplay_hidden := r.2.2 }
        match r.1 with
        | some c => (st2, .playSongAct c)
        | none => (st2, .emergencyRefill)
      else ({ st1 with current := none }, .sessionEnd)

/-- The post-refill selection loop of the `wait_and_play` coroutine inside
`play_next` (music.py lines 533-538): pop visible heads, skipping
duration-filtered candidates, until a playable song is found.  No
hidden→visible rotation is performed here.  Returns (chosen song if any,
remaining visible list). -/
def postRefillSelect (maxDur : Nat) : List Song → Option Song × List Song
  | [] => (none, [])
  | c :: vs =>
    if durFiltered maxDur c then postRefillSelect maxDur vs
    else (some c, vs)

/-- The `wait_and_play` coroutine (music.py lines 530-542): run the refill,
then select a playable song from the refreshed visible buffer. -/
def waitAndPlay (st : GuildMusicState) (env : RefillEnv) :
    GuildMusicState × Option Song :=
  let st' := refillAutoplayBuffer st env
  let r := postRefillSelect st'.max_duration st'.autoplay_visible
  ({ st' with autoplay_visible := r.2 }, r.1)

/-- The stream metadata obtained by `YTDLSource.from_url` that `_play_song`
inspects: `source.duration` (possibly `None`) and `source.thumbnail`. -/
structure ResolvedSource where
  duration : Option Nat
  thumbnail : Option String
deriving DecidableEq, Repr

/-- Outcome of the `play_async` body of `_play_song`: the track started
playing, or it was skipped by the post-resolution duration filter (which
calls `play_next` again), or resolution raised (the `except` handler also
calls `play_next`). -/
inductive PlayOutcome where
  | started
  | skippedOverLimit
  | resolutionFailed
deriving DecidableEq, Repr

/-- `_play_song` (music.py lines 590-655) up to the play decision:
`state.current = song` is set synchronously; then `play_async` resolves the
stream (`resolved`, `.error` = the resolver raised), re-checks
`max_duration` against the actual resolved duration
(`actual_duration = source.duration or 0`), and on a violation skips the
track and re-runs `play_next`; otherwise it updates `current` with the
actual metadata and starts playback. -/
def playSongStep (st : GuildMusicState) (song : Song)
    (resolved : Except Unit ResolvedSource) : GuildMusicState × PlayOutcome :=
  let st0 := { st with current := some song }
  match resolved with
  | .error _ => (st0, .resolutionFailed)
  | .ok src =>
    let actual := src.duration.getD 0
    if 0 < st0.max_duration ∧ 0 < actual ∧ st0.max_duration < actual then
      (st0, .skippedOverLimit)
    else
      let song1 := if 0 < actual then { song with duration := actual } else song
      let song2 :=
        match src.thumbnail with
        | some t => { song1 with thumbnail := some t }
        | none => song1
      ({ st0 with current := some song2 }, .started)

/-! ## Discovery scorer: tier counts and temporal decay -/

/-- Python's builtin `round`: round half to even (banker's rounding).
The source computes `round(count * ratio)` on IEEE doubles; the model uses
exact rationals, which agree with the float computation at every count the
claims evaluate. -/
def pyRound (q : ℚ) : ℤ :=
  let f := ⌊q⌋
  let frac := q - f
  if frac < 1/2 then f
  else if 1/2 < frac then f + 1
  else if f % 2 = 0 then f else f + 1

/-- Default tier ratios from `src/config.py` (lines 56-58):
`DISCOVERY_RATIO_COMFORT = 0.5`. -/
def ratioComfortDefault : ℚ := 1/2

/-- `DISCOVERY_RATIO_ADJACENT = 0.35` (config.py line 57). -/
def ratioAdjacentDefault : ℚ := 7/20

/-- `DISCOVERY_RATIO_WILDCARD = 0.15` (config.py line 58). -/
def ratioWildcardDefault : ℚ := 3/20

/-- The tier-count computation of `build_user_slots` (discovery.py lines
137-139): `comfort_count = max(1, round(count * RATIO_COMFORT))`,
`adjacent_count = max(1, round(count * RATIO_ADJACENT))`,
`wildcard_count = max(0, count - comfort_count - adjacent_count)`. -/
def tierCounts (count : Nat) (ratioComfort ratioAdjacent : ℚ) : ℤ × ℤ × ℤ :=
  let comfort := max 1 (pyRound (count * ratioComfort))
  let adjacent := max 1 (pyRound (count * ratioAdjacent))
  let wildcard := max 0 ((count : ℤ) - comfort - adjacent)
  (comfort, adjacent, wildcard)

/-- `_temporal_weight` (discovery.py lines 50-62) on an already-computed age:
`math.pow(0.5, age_days / max(half_life_days, 1))`.  (The timestamp parsing
and the `max(..., 0)` clamp of the age are upstream of this formula; the
claims quantify over the age directly.) -/
noncomputable def temporalWeight (ageDays : ℝ) (halfLifeDays : ℕ) : ℝ :=
  (1/2 : ℝ) ^ (ageDays / (max halfLifeDays 1 : ℕ))

/-- The effective score of a liked entry (discovery.py lines 127-131):
`score × temporal decay`. -/
noncomputable def effectiveScore (rawScore : ℝ) (ageDays : ℝ)
    (halfLifeDays : ℕ) : ℝ :=
  rawScore * temporalWeight ageDays halfLifeDays

/-! ## Fairness allocator (`allocate_queue`, `_interleave_slots`) -/

/-- Adding a slot's url to the running `global_used` set (allocate_queue,
lines 512-515): Python adds `s['url']` when it is truthy; the model keeps
the set as a duplicate-free list in insertion order. -/
def insertUrl (used : List String) (url : String) : List String :=
  if url = "" || used.contains url then used else used ++ [url]

/-- The `for user_id in user_ids` loop of `allocate_queue` (discovery.py
lines 498-515).  `hasPrefs` models `db.has_preferences`; `scorer` models
`build_user_slots` as a function of the user and the current disallow set
(it is awaited, so its result is environment data).  Users without
preferences, and users for whom the scorer returns no slots, contribute
nothing.  For each contributing user: first `slots_per_user // 2` slots go
to the public map, the rest to the hidden map, and every slot url joins the
global disallow set. -/
def buildAlloc (slotsPerUser : Nat) (hasPrefs : Nat → Bool)
    (scorer : Nat → List String → List Slot) :
    List Nat → List String →
    List (Nat × List Slot) × List (Nat × List Slot)
  | [], _ => ([], [])
  | u :: us, used =>
    if !hasPrefs u then buildAlloc slotsPerUser hasPrefs scorer us used
    else
      let slots := scorer u used
      if slots.isEmpty then buildAlloc slotsPerUser hasPrefs scorer us used
      else
        let half := slotsPerUser / 2
        let used' := slots.foldl (fun acc s => insertUrl acc s.url) used
        let rest := buildAlloc slotsPerUser hasPrefs scorer us used'
        ((u, slots.take half) :: rest.1, (u, slots.drop half) :: rest.2)

/-- `_interleave_slots` (discovery.py lines 537-553): round-robin
interleave of the per-user slot lists.  `order` is the shuffled key list
produced by `random.shuffle` (quantified over by the theorems); for
`i = 0 .. max_slots - 1` and each user in `order`, the user's `i`-th slot
is appended when it exists. -/
def interleaveSlots (byUser : List (Nat × List Slot)) (order : List Nat) :
    List Slot :=
  if byUser.isEmpty then []
  else
    let lookup := fun u => ((byUser.find? (fun p => p.1 == u)).map Prod.snd).getD []
    let maxSlots := (byUser.map (fun p => p.2.length)).foldl max 0
    (List.range maxSlots).flatMap
      (fun i => order.filterMap (fun u => (lookup u)[i]?))

/-- `allocate_queue` (discovery.py lines 480-535): build the per-user maps,
then interleave each with its own random ordering of the contributing
users.  Returns `(public_queue, hidden_queue)`. -/
def allocateQueue (slotsPerUser : Nat) (hasPrefs : Nat → Bool)
    (scorer : Nat → List String → List Slot) (userIds : List Nat)
    (orderPub orderHid : List Nat) : List Slot × List Slot :=
  let (pubByUser, hidByUser) := buildAlloc slotsPerUser hasPrefs scorer userIds []
  (interleaveSlots pubByUser orderPub, interleaveSlots hidByUser orderHid)

/-! ## Theorems -/

/-- C4: calling `_refill_autoplay_buffer` while `is_fetching_autoplay` is
already `true` is a no-op: the entry guard returns immediately and the
session state — request queue, both autoplay buffers and every other
field — is unchanged. -/
theorem refill_noop_when_fetching (st : GuildMusicState) (env : RefillEnv)
    (h : st.is_fetching_autoplay = true) :
    refillAutoplayBuffer st env = st := by
  simp [refillAutoplayBuffer, h]

/-- Witness for `refill_noop_when_fetching` at a concrete session. -/
theorem refill_noop_when_fetching_witness :
    ({ is_fetching_autoplay := true : GuildMusicState }).is_fetching_autoplay
      = true ∧
    refillAutoplayBuffer { is_fetching_autoplay := true }
        ⟨.ok [], .ok [], true⟩ =
      { is_fetching_autoplay := true } :=
  ⟨rfl, refill_noop_when_fetching _ _ rfl⟩

/-- C10: every `_refill_autoplay_buffer` call that passes the entry guard
(flag clear, voice client present) ends with `is_fetching_autoplay = false`,
for every environment — including one whose discovery call raises (the
`finally` block clears the flag on the exception path too), so a failed
refill never wedges the session. -/
theorem refill_resets_flag (st : GuildMusicState) (env : RefillEnv)
    (h1 : st.is_fetching_autoplay = false) (h2 : st.has_voice_client = true) :
    (refillAutoplayBuffer st env).is_fetching_autoplay = false := by
  simp only [refillAutoplayBuffer, h1, h2, Bool.not_true, Bool.or_self]
  split
  · exact h1
  · rfl

/-- Witness for `refill_resets_flag` on the exception path (`alloc` raises). -/
theorem refill_resets_flag_witness :
    ({ has_voice_client := true : GuildMusicState }).is_fetching_autoplay
      = false ∧
    ({ has_voice_client := true : GuildMusicState }).has_voice_client = true ∧
    (refillAutoplayBuffer { has_voice_client := true }
        ⟨.error (), .error (), true⟩).is_fetching_autoplay = false :=
  ⟨rfl, rfl, refill_resets_flag _ ⟨.error (), .error (), true⟩ rfl rfl⟩

/-- C6: with loop mode off, `requestQueue = [x]` and
`autoplayVisible = [y]`, the advance algorithm hands `x` to `_play_song`,
pops it from the request queue, and leaves the autoplay visible buffer
untouched (still `[y]`). -/
theorem advance_request_beats_autoplay (st : GuildMusicState) (x y : Song)
    (hl : st.loop_mode = .off) (hq : st.queue = [x])
    (hv : st.autoplay_visible = [y]) :
    playNext st = ({ st with queue := [] }, .playSongAct x) ∧
    (playNext st).1.autoplay_visible = [y] := by
  have hmain : playNext st = ({ st with queue := [] }, .playSongAct x) := by
    simp [playNext, loopQueueAppend, hl, hq]
  exact ⟨hmain, by rw [hmain]; exact hv⟩

/-- Witness for `advance_request_beats_autoplay` at concrete songs. -/
theorem advance_request_beats_autoplay_witness :
    ({ loop_mode := .off,
       queue := [{ title := "X", url := "x", webpage_url := "x", duration := 0 }],
       autoplay_visible :=
         [{ title := "Y", url := "y", webpage_url := "y", duration := 0 }] :
       GuildMusicState }).loop_mode = .off ∧
    playNext
        { loop_mode := .off,
          queue := [{ title := "X", url := "x", webpage_url := "x", duration := 0 }],
          autoplay_visible :=
            [{ title := "Y", url := "y", webpage_url := "y", duration := 0 }] } =
      ({ loop_mode := .off, queue := [],
         autoplay_visible :=
           [{ title := "Y", url := "y", webpage_url := "y", duration := 0 }] },
       .playSongAct { title := "X", url := "x", webpage_url := "x", duration := 0 }) :=
  ⟨rfl,
   (advance_request_beats_autoplay _ _
      { title := "Y", url := "y", webpage_url := "y", duration := 0 }
      rfl rfl rfl).1⟩

/-- C7: whenever `max_duration > 0` and stream resolution reports an actual
duration exceeding it, `_play_song` does not start the track: the
post-resolution duration filter fires, the track is dropped, and
`play_next` is re-run to try the next candidate. -/
theorem duration_refilter_skips (st : GuildMusicState) (song : Song)
    (src : ResolvedSource) (hmd : 0 < st.max_duration)
    (hdur : st.max_duration < src.duration.getD 0) :
    playSongStep st song (.ok src) =
      ({ st with current := some song }, .skippedOverLimit) ∧
    (playSongStep st song (.ok src)).2 ≠ .started := by
  have hpos : 0 < src.duration.getD 0 := Nat.lt_trans hmd hdur
  have hmain : playSongStep st song (.ok src) =
      ({ st with current := some song }, .skippedOverLimit) := by
    simp [playSongStep, hmd, hpos, hdur]
  exact ⟨hmain, by rw [hmain]; simp⟩

/-- Witness for `duration_refilter_skips`: limit 120 s, resolved 180 s. -/
theorem duration_refilter_skips_witness :
    0 < ({ max_duration := 120 : GuildMusicState }).max_duration ∧
    ({ max_duration := 120 : GuildMusicState }).max_duration <
      (ResolvedSource.mk (some 180) none).duration.getD 0 ∧
    (playSongStep { max_duration := 120 }
        { title := "T", url := "t", webpage_url := "t", duration := 0 }
        (.ok (ResolvedSource.mk (some 180) none))).2 = .skippedOverLimit :=
  ⟨by decide, by decide,
   by rw [(duration_refilter_skips { max_duration := 120 }
       { title := "T", url := "t", webpage_url := "t", duration := 0 }
       (ResolvedSource.mk (some 180) none) (by decide) (by decide)).1]⟩

/-! ### C1: buffer-size invariant -/

/-- The spec's buffer bounds: `len(visible) ≤ 5 ∧ len(hidden) ≤ 5 ∧
len(visible) + len(hidden) ≤ 10`. -/
def bufferInvariant (st : GuildMusicState) : Prop :=
  st.autoplay_visible.length ≤ 5 ∧ st.autoplay_hidden.length ≤ 5 ∧
    st.autoplay_visible.length + st.autoplay_hidden.length ≤ 10

instance (st : GuildMusicState) : Decidable (bufferInvariant st) := by
  unfold bufferInvariant; infer_instance

/-- The recommendation loop keeps both buffers within bounds provided it is
handed no more songs than the free space `10 - (|vis| + |hid|)`. -/
theorem addRecs_bounds (queue : List Song) (recs : List Song) :
    ∀ vis hid : List Song, vis.length ≤ 5 → hid.length ≤ 5 →
      vis.length + hid.length + recs.length ≤ 10 →
      (addRecs queue vis hid recs).1.length ≤ 5 ∧
      (addRecs queue vis hid recs).2.length ≤ 5 ∧
      (addRecs queue vis hid recs).1.length +
        (addRecs queue vis hid recs).2.length ≤ 10 := by
  induction recs with
  | nil =>
    intro vis hid h1 h2 h3
    exact ⟨h1, h2, by simpa using h3⟩
  | cons song rest ih =>
    intro vis hid h1 h2 h3
    simp only [List.length_cons] at h3
    simp only [addRecs]
    split
    · exact ih vis hid h1 h2 (by omega)
    · split
      · exact ih (vis ++ [song]) hid (by simp; omega) h2 (by simp; omega)
      · exact ih vis (hid ++ [song]) h1 (by simp; omega) (by simp; omega)

/-- The fallback loop keeps both buffers at ≤ 5 by its explicit checks. -/
theorem addFallback_bounds (queue : List Song) (ps : List Song) :
    ∀ vis hid : List Song, vis.length ≤ 5 → hid.length ≤ 5 →
      (addFallback queue vis hid ps).1.length ≤ 5 ∧
      (addFallback queue vis hid ps).2.length ≤ 5 := by
  induction ps with
  | nil => intro vis hid h1 h2; exact ⟨h1, h2⟩
  | cons p rest ih =>
    intro vis hid h1 h2
    simp only [addFallback]
    split
    · exact ih vis hid h1 h2
    · split
      · exact ih (vis ++ [p]) hid (by simp; omega) h2
      · split
        · exact ih vis (hid ++ [p]) h1 (by simp; omega)
        · exact ⟨h1, h2⟩

/-- The autoplay scan of `play_next` only shrinks the combined buffer: it
pops visible candidates and moves at most one hidden song into visible. -/
theorem autoplayLoop_bounds (maxDur : Nat) (vis : List Song) :
    ∀ hid : List Song, vis.length ≤ 5 → hid.length ≤ 5 →
      (autoplayLoop maxDur vis hid).2.1.length ≤ 5 ∧
      (autoplayLoop maxDur vis hid).2.2.length ≤ 5 ∧
      (autoplayLoop maxDur vis hid).2.1.length +
        (autoplayLoop maxDur vis hid).2.2.length ≤ 10 := by
  induction vis with
  | nil => intro hid h1 h2; simp [autoplayLoop]; omega
  | cons c vs ih =>
    intro hid h1 h2
    simp only [List.length_cons] at h1
    simp only [autoplayLoop]
    split
    · exact ih hid (by omega) h2
    · match hid, h2 with
      | [], _ => simp; omega
      | h :: hs, h2 =>
        simp only [List.length_cons] at h2
        simp
        omega

/-- `loopQueueAppend` never touches the autoplay buffers. -/
theorem loopQueueAppend_buffers (st : GuildMusicState) :
    (loopQueueAppend st).autoplay_visible = st.autoplay_visible ∧
    (loopQueueAppend st).autoplay_hidden = st.autoplay_hidden ∧
    (loopQueueAppend st).max_duration = st.max_duration ∧
    (loopQueueAppend st).is_autoplay = st.is_autoplay := by
  unfold loopQueueAppend
  split <;> exact ⟨rfl, rfl, rfl, rfl⟩

/-- The refill body keeps both buffers within bounds: the discovery stage
is fed at most the free space (`get_next_songs` truncates to
`total_needed`) and the fallback stage checks the caps explicitly. -/
theorem refillBuffers_bounds (queue vis hid : List Song) (env : RefillEnv)
    (h1 : vis.length ≤ 5) (h2 : hid.length ≤ 5)
    (h3 : vis.length + hid.length ≤ 10) :
    (refillBuffers queue vis hid env).1.length ≤ 5 ∧
    (refillBuffers queue vis hid env).2.length ≤ 5 ∧
    (refillBuffers queue vis hid env).1.length +
      (refillBuffers queue vis hid env).2.length ≤ 10 := by
  simp only [refillBuffers]
  split
  · exact ⟨h1, h2, h3⟩
  · split
    · exact ⟨h1, h2, h3⟩
    · rename_i allocated heq
      have hstep2 := addRecs_bounds queue
        ((getNextSongs allocated
            ((10 : ℤ) - ((vis ++ hid).length : ℤ)).toNat).map slotToSong)
        vis hid h1 h2 (by simp [getNextSongs]; omega)
      split
      · split
        · exact ⟨hstep2.1, hstep2.2.1, hstep2.2.2⟩
        · rename_i playlistSongs hps
          have hfb := addFallback_bounds queue playlistSongs
            (addRecs queue vis hid
              ((getNextSongs allocated
                  ((10 : ℤ) - ((vis ++ hid).length : ℤ)).toNat).map
                slotToSong)).1
            (addRecs queue vis hid
              ((getNextSongs allocated
                  ((10 : ℤ) - ((vis ++ hid).length : ℤ)).toNat).map
                slotToSong)).2
            hstep2.1 hstep2.2.1
          exact ⟨hfb.1, hfb.2, by omega⟩
      · exact ⟨hstep2.1, hstep2.2.1, hstep2.2.2⟩

/-- The post-refill selection loop only drops visible entries. -/
theorem postRefillSelect_len (maxDur : Nat) (vis : List Song) :
    (postRefillSelect maxDur vis).2.length ≤ vis.length := by
  induction vis with
  | nil => simp [postRefillSelect]
  | cons c vs ih =>
    simp only [postRefillSelect]
    split
    · exact Nat.le_trans ih (by simp)
    · simp

/-- C1: the buffer bounds `|visible| ≤ 5`, `|hidden| ≤ 5`,
`|visible| + |hidden| ≤ 10` are preserved by every completed
`_refill_autoplay_buffer` run (any environment, including the fallback
path), by the advance algorithm `play_next` (which performs the
hidden→visible rotations), and by the emergency-refill coroutine
`wait_and_play`. -/
theorem buffer_bounds_preserved (st : GuildMusicState) (env : RefillEnv)
    (h : bufferInvariant st) :
    bufferInvariant (refillAutoplayBuffer st env) ∧
    bufferInvariant (playNext st).1 ∧
    bufferInvariant (waitAndPlay st env).1 := by
  obtain ⟨h1, h2, h3⟩ := h
  have hbody := refillBuffers_bounds st.queue st.autoplay_visible
    st.autoplay_hidden env h1 h2 h3
  have hrefill : bufferInvariant (refillAutoplayBuffer st env) := by
    unfold refillAutoplayBuffer
    split
    · exact ⟨h1, h2, h3⟩
    · exact ⟨hbody.1, hbody.2.1, hbody.2.2⟩
  refine ⟨hrefill, ?_, ?_⟩
  · simp only [playNext]
    split
    · exact ⟨h1, h2, h3⟩
    · obtain ⟨e1, e2, e3, _⟩ := loopQueueAppend_buffers st
      split
      · exact ⟨by rw [e1]; exact h1, by rw [e2]; exact h2,
          by rw [e1, e2]; exact h3⟩
      · split
        · have hb := autoplayLoop_bounds (loopQueueAppend st).max_duration
            (loopQueueAppend st).autoplay_visible
            (loopQueueAppend st).autoplay_hidden
            (by rw [e1]; exact h1) (by rw [e2]; exact h2)
          split
          · exact ⟨hb.1, hb.2.1, hb.2.2⟩
          · exact ⟨hb.1, hb.2.1, hb.2.2⟩
        · exact ⟨by rw [e1]; exact h1, by rw [e2]; exact h2,
            by rw [e1, e2]; exact h3⟩
  · obtain ⟨r1, r2, r3⟩ := hrefill
    have hlen := postRefillSelect_len
      (refillAutoplayBuffer st env).max_duration
      (refillAutoplayBuffer st env).autoplay_visible
    exact ⟨Nat.le_trans hlen r1, r2,
      Nat.le_trans (Nat.add_le_add hlen (Nat.le_refl _)) r3⟩

/-- Witness for `buffer_bounds_preserved` at a concrete session and
environment exercising the discovery path. -/
theorem buffer_bounds_preserved_witness :
    bufferInvariant
      { has_voice_client := true,
        autoplay_visible :=
          [{ title := "V", url := "v", webpage_url := "v", duration := 0 }],
        autoplay_hidden :=
          [{ title := "H", url := "h", webpage_url := "h", duration := 0 }] } ∧
    bufferInvariant
      (refillAutoplayBuffer
        { has_voice_client := true,
          autoplay_visible :=
            [{ title := "V", url := "v", webpage_url := "v", duration := 0 }],
          autoplay_hidden :=
            [{ title := "H", url := "h", webpage_url := "h", duration := 0 }] }
        ⟨.ok [{ artist := "A", song := "S", url := "s", user_id := 1,
                slot_type := "comfort", reason := "r" }], .ok [], true⟩) :=
  ⟨by decide,
   (buffer_bounds_preserved _ _ (by decide)).1⟩

/-! ### C2: no duplicate URLs after a refill -/

/-- The track URLs across `requestQueue ∪ autoplayVisible ∪ autoplayHidden`. -/
def sessionUrls (st : GuildMusicState) : List String :=
  (st.queue ++ st.autoplay_visible ++ st.autoplay_hidden).map (fun s => s.url)

/-- Inserting a song at the back of `vis` keeps the combined url list
duplicate-free when the song's url is fresh. -/
theorem urlsNodup_append_mid (queue vis hid : List Song) (song : Song)
    (hnd : ((queue ++ vis ++ hid).map (fun s => s.url)).Nodup)
    (hfresh : song.url ∉ (queue ++ vis ++ hid).map (fun s => s.url)) :
    ((queue ++ (vis ++ [song]) ++ hid).map (fun s => s.url)).Nodup := by
  have hperm : (queue ++ (vis ++ [song]) ++ hid).Perm
      (song :: (queue ++ vis ++ hid)) := by
    have h1 : queue ++ (vis ++ [song]) ++ hid =
        (queue ++ vis) ++ (song :: hid) := by simp
    rw [h1]
    have h2 := @List.perm_middle Song song (queue ++ vis) hid
    simpa using h2
  rw [(hperm.map (fun s => s.url)).nodup_iff]
  simp only [List.map_cons, List.nodup_cons]
  exact ⟨hfresh, hnd⟩

/-- Inserting a song at the back of `hid` keeps the combined url list
duplicate-free when the song's url is fresh. -/
theorem urlsNodup_append_end (queue vis hid : List Song) (song : Song)
    (hnd : ((queue ++ vis ++ hid).map (fun s => s.url)).Nodup)
    (hfresh : song.url ∉ (queue ++ vis ++ hid).map (fun s => s.url)) :
    ((queue ++ vis ++ (hid ++ [song])).map (fun s => s.url)).Nodup := by
  have hperm : (queue ++ vis ++ (hid ++ [song])).Perm
      (song :: (queue ++ vis ++ hid)) := by
    have h1 : queue ++ vis ++ (hid ++ [song]) =
        (queue ++ vis ++ hid) ++ [song] := by simp
    rw [h1]
    exact List.perm_append_singleton song (queue ++ vis ++ hid)
  rw [(hperm.map (fun s => s.url)).nodup_iff]
  simp only [List.map_cons, List.nodup_cons]
  exact ⟨hfresh, hnd⟩

/-- The recommendation loop never introduces a duplicate url: a song is
appended only after the `any`-check over the live state fails. -/
theorem addRecs_nodup (queue : List Song) (recs : List Song) :
    ∀ vis hid : List Song,
      ((queue ++ vis ++ hid).map (fun s => s.url)).Nodup →
      ((queue ++ (addRecs queue vis hid recs).1 ++
          (addRecs queue vis hid recs).2).map (fun s => s.url)).Nodup := by
  induction recs with
  | nil => intro vis hid h; exact h
  | cons song rest ih =>
    intro vis hid h
    simp only [addRecs]
    split
    · exact ih vis hid h
    · rename_i hany
      have hfresh : song.url ∉ (queue ++ vis ++ hid).map (fun s => s.url) := by
        intro hmem
        apply hany
        obtain ⟨s, hs, hu⟩ := List.mem_map.mp hmem
        simp only [List.any_eq_true, beq_iff_eq]
        exact ⟨s, hs, hu⟩
      split
      · exact ih (vis ++ [song]) hid (urlsNodup_append_mid queue vis hid song h hfresh)
      · exact ih vis (hid ++ [song]) (urlsNodup_append_end queue vis hid song h hfresh)

/-- The fallback loop never introduces a duplicate url either: its
`any`-check covers both `url` and `webpage_url` matches. -/
theorem addFallback_nodup (queue : List Song) (ps : List Song) :
    ∀ vis hid : List Song,
      ((queue ++ vis ++ hid).map (fun s => s.url)).Nodup →
      ((queue ++ (addFallback queue vis hid ps).1 ++
          (addFallback queue vis hid ps).2).map (fun s => s.url)).Nodup := by
  induction ps with
  | nil => intro vis hid h; exact h
  | cons p rest ih =>
    intro vis hid h
    simp only [addFallback]
    split
    · exact ih vis hid h
    · rename_i hany
      have hfresh : p.url ∉ (queue ++ vis ++ hid).map (fun s => s.url) := by
        intro hmem
        apply hany
        obtain ⟨s, hs, hu⟩ := List.mem_map.mp hmem
        simp only [List.any_eq_true, Bool.or_eq_true, beq_iff_eq]
        exact ⟨s, hs, Or.inl hu⟩
      split
      · exact ih (vis ++ [p]) hid (urlsNodup_append_mid queue vis hid p h hfresh)
      · split
        · exact ih vis (hid ++ [p]) (urlsNodup_append_end queue vis hid p h hfresh)
        · exact h

/-- The refill body preserves url-distinctness across
`queue ∪ visible ∪ hidden`. -/
theorem refillBuffers_nodup (queue vis hid : List Song) (env : RefillEnv)
    (h : ((queue ++ vis ++ hid).map (fun s => s.url)).Nodup) :
    ((queue ++ (refillBuffers queue vis hid env).1 ++
        (refillBuffers queue vis hid env).2).map (fun s => s.url)).Nodup := by
  simp only [refillBuffers]
  split
  · exact h
  · split
    · exact h
    · rename_i allocated heq
      have h2 := addRecs_nodup queue
        ((getNextSongs allocated
            ((10 : ℤ) - ((vis ++ hid).length : ℤ)).toNat).map slotToSong)
        vis hid h
      split
      · split
        · exact h2
        · exact addFallback_nodup queue _ _ _ h2
      · exact h2

/-- A song a user can queue twice via the play command (which appends to
`state.queue` without any duplicate check). -/
def cxDupSong : Song :=
  { title := "X", url := "x", webpage_url := "x", duration := 0 }

/-- Counterexample to C2 as stated: the refill never removes pre-existing
duplicates.  A session whose request queue already holds the same track
twice (reachable: the play command appends to the queue without a duplicate
check) still has that URL twice across
`requestQueue ∪ autoplayVisible ∪ autoplayHidden` immediately after a
refill completes. -/
theorem refill_dup_counterexample :
    ¬ (sessionUrls (refillAutoplayBuffer
        { has_voice_client := true, queue := [cxDupSong, cxDupSong] }
        ⟨.ok [], .ok [], false⟩)).Nodup := by
  decide

/-- C2 (amended): provided no track URL appears more than once across
`requestQueue ∪ autoplayVisible ∪ autoplayHidden` when the refill starts,
then immediately after the refill completes no track URL appears more than
once across that union — i.e. the refill itself never introduces a
duplicate: every appended song first passes the duplicate check against the
live session state. -/
theorem refill_urls_nodup (st : GuildMusicState) (env : RefillEnv)
    (h : (sessionUrls st).Nodup) :
    (sessionUrls (refillAutoplayBuffer st env)).Nodup := by
  unfold refillAutoplayBuffer
  split
  · exact h
  · exact refillBuffers_nodup st.queue st.autoplay_visible st.autoplay_hidden env h

/-- Witness for `refill_urls_nodup` on a session whose refill both adds a
fresh recommendation and rejects a duplicate of a queued track. -/
theorem refill_urls_nodup_witness :
    (sessionUrls
      { has_voice_client := true,
        queue := [{ title := "Q", url := "q", webpage_url := "q", duration := 0 }],
        autoplay_visible :=
          [{ title := "V", url := "v", webpage_url := "v", duration := 0 }] }).Nodup ∧
    (sessionUrls
      (refillAutoplayBuffer
        { has_voice_client := true,
          queue := [{ title := "Q", url := "q", webpage_url := "q", duration := 0 }],
          autoplay_visible :=
            [{ title := "V", url := "v", webpage_url := "v", duration := 0 }] }
        ⟨.ok [{ artist := "A", song := "S", url := "q", user_id := 1,
                slot_type := "comfort", reason := "r" },
              { artist := "A", song := "S2", url := "s2", user_id := 1,
                slot_type := "comfort", reason := "r" }],
         .ok [], true⟩)).Nodup :=
  ⟨by decide, refill_urls_nodup _ _ (by decide)⟩

/-! ### C8: hidden→visible rotation happens only on accepted candidates -/

/-- A 200-second track that violates a 120-second duration limit. -/
def cxSongA : Song :=
  { title := "A", url := "a", webpage_url := "a", duration := 200 }

/-- A hidden-buffer track. -/
def cxSongH : Song :=
  { title := "H", url := "h", webpage_url := "h", duration := 0 }

/-- Session in which the advance algorithm pops `cxSongA` from the visible
buffer (a consumption, with `autoplayHidden` non-empty) but discards it via
the duration pre-filter. -/
def cxRotationState : GuildMusicState :=
  { loop_mode := .off, is_autoplay := true, has_voice_client := true,
    queue := [], autoplay_visible := [cxSongA], autoplay_hidden := [cxSongH],
    max_duration := 120 }

/-- Counterexample to C8: in `cxRotationState` the advance algorithm pops
`cxSongA` from `autoplayVisible` (visible goes `[A]` → `[]`) while
`autoplayHidden = [H]` is non-empty, yet no hidden→visible rotation occurs:
the `continue` for a duration-filtered candidate skips the rotation, so the
hidden buffer still holds `H` afterwards instead of having its head popped
and appended to visible as the claim requires. -/
theorem rotation_every_consumption_counterexample :
    cxRotationState.autoplay_visible = [cxSongA] ∧
    cxRotationState.autoplay_hidden = [cxSongH] ∧
    (playNext cxRotationState).1.autoplay_visible = [] ∧
    (playNext cxRotationState).1.autoplay_hidden = [cxSongH] ∧
    (playNext cxRotationState).2 = .emergencyRefill :=
  ⟨rfl, rfl, rfl, rfl, rfl⟩

/-- C8 (amended): the hidden→visible rotation accompanies exactly the
*accepted* consumption of the advance loop — candidates discarded by the
duration pre-filter are dropped from `autoplayVisible` with no rotation
(first conjunct: the loop equals "drop filtered candidates, then on
acceptance rotate one hidden head"), and the post-emergency-refill retry
(`wait_and_play`) performs no rotation at all (second conjunct: it leaves
`autoplayHidden` exactly as the refill left it). -/
theorem rotation_on_accept_only (maxDur : Nat) (vis hid : List Song) :
    autoplayLoop maxDur vis hid =
      (match vis.dropWhile (durFiltered maxDur) with
       | [] => (none, [], hid)
       | c :: rest =>
         match hid with
         | [] => (some c, rest, [])
         | h :: hs => (some c, rest ++ [h], hs)) ∧
    ∀ (st : GuildMusicState) (env : RefillEnv),
      (waitAndPlay st env).1.autoplay_hidden =
        (refillAutoplayBuffer st env).autoplay_hidden := by
  constructor
  · induction vis with
    | nil => rfl
    | cons c vs ih =>
      simp only [autoplayLoop, List.dropWhile_cons]
      by_cases hf : durFiltered maxDur c
      · simp only [hf, if_true]
        exact ih
      · simp only [hf, Bool.false_eq_true, if_false]
  · intro st env
    rfl

/-! ### C3: tier counts -/

/-- `pyRound` never exceeds its argument by more than a half. -/
theorem pyRound_le (q : ℚ) : (pyRound q : ℚ) ≤ q + 1/2 := by
  have h1 : (⌊q⌋ : ℚ) ≤ q := Int.floor_le q
  have h2 : q < ⌊q⌋ + 1 := Int.lt_floor_add_one q
  simp only [pyRound]
  split_ifs <;> push_cast <;> linarith

/-- `pyRound` never falls below its argument by more than a half. -/
theorem le_pyRound (q : ℚ) : q - 1/2 ≤ (pyRound q : ℚ) := by
  have h1 : (⌊q⌋ : ℚ) ≤ q := Int.floor_le q
  have h2 : q < ⌊q⌋ + 1 := Int.lt_floor_add_one q
  simp only [pyRound]
  split_ifs <;> push_cast <;> linarith

/-- Counterexample to C3: at the smallest requested count the claim covers,
`count = 3`, under the default ratios the wildcard tier receives 0 slots
even though its configured ratio `0.15` is positive
(`comfort = max(1, round(1.5)) = 2`, `adjacent = max(1, round(1.05)) = 1`,
`wildcard = max(0, 3 - 2 - 1) = 0`). -/
theorem tier_counts_counterexample :
    3 ≤ 3 ∧ (0 : ℚ) < ratioWildcardDefault ∧
    (tierCounts 3 ratioComfortDefault ratioAdjacentDefault).2.2 = 0 := by
  refine ⟨le_refl 3, by norm_num [ratioWildcardDefault], ?_⟩
  norm_num [tierCounts, pyRound, ratioComfortDefault, ratioAdjacentDefault]

/-- C3 (amended): under the default ratios 0.50/0.35/0.15, for every
requested `count ≥ 3` the tier counts sum exactly to `count` and the
comfort and adjacent tiers each get at least one slot; the wildcard tier
gets at least one slot for every `count ≥ 4`, but at `count = 3` it gets 0
despite its positive ratio (last conjunct). -/
theorem tier_counts_default (count : Nat) (h : 3 ≤ count) :
    (tierCounts count ratioComfortDefault ratioAdjacentDefault).1 +
      (tierCounts count ratioComfortDefault ratioAdjacentDefault).2.1 +
      (tierCounts count ratioComfortDefault ratioAdjacentDefault).2.2 = count ∧
    1 ≤ (tierCounts count ratioComfortDefault ratioAdjacentDefault).1 ∧
    1 ≤ (tierCounts count ratioComfortDefault ratioAdjacentDefault).2.1 ∧
    (4 ≤ count →
      1 ≤ (tierCounts count ratioComfortDefault ratioAdjacentDefault).2.2) ∧
    (tierCounts 3 ratioComfortDefault ratioAdjacentDefault).2.2 = 0 := by
  have h3fact : (tierCounts 3 ratioComfortDefault ratioAdjacentDefault).2.2 = 0 := by
    norm_num [tierCounts, pyRound, ratioComfortDefault, ratioAdjacentDefault]
  by_cases hsmall : count ≤ 13
  · interval_cases count <;>
      refine ⟨?_, ?_, ?_, ?_, h3fact⟩ <;>
      norm_num [tierCounts, pyRound, ratioComfortDefault, ratioAdjacentDefault]
  · have h14 : 14 ≤ count := by omega
    have hn : (14 : ℚ) ≤ (count : ℚ) := by exact_mod_cast h14
    have hcle := pyRound_le ((count : ℚ) * ratioComfortDefault)
    have hcge := le_pyRound ((count : ℚ) * ratioComfortDefault)
    have hale := pyRound_le ((count : ℚ) * ratioAdjacentDefault)
    have hage := le_pyRound ((count : ℚ) * ratioAdjacentDefault)
    simp only [ratioComfortDefault, ratioAdjacentDefault] at hcle hcge hale hage
    have hc1 : 1 ≤ pyRound ((count : ℚ) * (1/2)) := by
      have hq : (1 : ℚ) ≤ (pyRound ((count : ℚ) * (1/2)) : ℚ) := by linarith
      exact_mod_cast hq
    have ha1 : 1 ≤ pyRound ((count : ℚ) * (7/20)) := by
      have hq : (0 : ℚ) < (pyRound ((count : ℚ) * (7/20)) : ℚ) := by linarith
      have hz : 0 < pyRound ((count : ℚ) * (7/20)) := by exact_mod_cast hq
      omega
    have hw1 : 1 ≤ (count : ℤ) - pyRound ((count : ℚ) * (1/2)) -
        pyRound ((count : ℚ) * (7/20)) := by
      have hq : (0 : ℚ) < (((count : ℤ) - pyRound ((count : ℚ) * (1/2)) -
          pyRound ((count : ℚ) * (7/20)) : ℤ) : ℚ) := by
        push_cast
        linarith
      have hz : 0 < (count : ℤ) - pyRound ((count : ℚ) * (1/2)) -
          pyRound ((count : ℚ) * (7/20)) := by exact_mod_cast hq
      omega
    simp only [tierCounts, ratioComfortDefault, ratioAdjacentDefault]
    rw [max_eq_right hc1, max_eq_right ha1, max_eq_right (by omega : (0:ℤ) ≤
      (count : ℤ) - pyRound ((count : ℚ) * (1/2)) - pyRound ((count : ℚ) * (7/20)))]
    exact ⟨by omega, hc1, ha1, fun _ => hw1, h3fact⟩

/-- Witness for `tier_counts_default` at `count = 5`. -/
theorem tier_counts_default_witness :
    3 ≤ 5 ∧
    ((tierCounts 5 ratioComfortDefault ratioAdjacentDefault).1 +
      (tierCounts 5 ratioComfortDefault ratioAdjacentDefault).2.1 +
      (tierCounts 5 ratioComfortDefault ratioAdjacentDefault).2.2 = 5 ∧
    1 ≤ (tierCounts 5 ratioComfortDefault ratioAdjacentDefault).1 ∧
    1 ≤ (tierCounts 5 ratioComfortDefault ratioAdjacentDefault).2.1 ∧
    (4 ≤ 5 →
      1 ≤ (tierCounts 5 ratioComfortDefault ratioAdjacentDefault).2.2) ∧
    (tierCounts 3 ratioComfortDefault ratioAdjacentDefault).2.2 = 0) :=
  ⟨by omega, tier_counts_default 5 (by omega)⟩

/-! ### C9: decay monotonicity -/

/-- C9: for a fixed raw score `s > 0` and half-life `h ≥ 1`, the effective
score `s × 0.5^(ageDays/h)` is strictly decreasing in `ageDays`; it equals
`s` at age 0, `s/2` at age `h`, and `s/4` at age `2h`, hence
`effectiveScore 0 > effectiveScore h > effectiveScore 2h`. -/
theorem effective_score_decay (s d₁ d₂ : ℝ) (h : ℕ)
    (hs : 0 < s) (hh : 1 ≤ h) (hd : d₁ < d₂) :
    effectiveScore s d₂ h < effectiveScore s d₁ h ∧
    effectiveScore s 0 h = s ∧
    effectiveScore s h h = s / 2 ∧
    effectiveScore s (2 * h) h = s / 4 ∧
    effectiveScore s h h < effectiveScore s 0 h ∧
    effectiveScore s (2 * h) h < effectiveScore s h h := by
  have hmax : max h 1 = h := Nat.max_eq_left hh
  have hhpos : (0 : ℝ) < (h : ℝ) := by
    have hp : 0 < h := hh
    exact_mod_cast hp
  have hbase0 : (0 : ℝ) < 1/2 := by norm_num
  have hbase1 : (1/2 : ℝ) < 1 := by norm_num
  have hw0 : temporalWeight 0 h = 1 := by
    simp [temporalWeight, hmax]
  have hwh : temporalWeight (h : ℝ) h = 1/2 := by
    simp only [temporalWeight, hmax]
    rw [div_self hhpos.ne']
    exact Real.rpow_one _
  have hw2h : temporalWeight (2 * (h : ℝ)) h = 1/4 := by
    simp only [temporalWeight, hmax]
    rw [mul_div_assoc, div_self hhpos.ne', mul_one]
    rw [show (2:ℝ) = ((2:ℕ):ℝ) by norm_num, Real.rpow_natCast]
    norm_num
  have hmono : temporalWeight d₂ h < temporalWeight d₁ h := by
    simp only [temporalWeight, hmax]
    apply Real.rpow_lt_rpow_of_exponent_gt hbase0 hbase1
    gcongr
  refine ⟨mul_lt_mul_of_pos_left hmono hs, ?_, ?_, ?_, ?_, ?_⟩
  · rw [effectiveScore, hw0, mul_one]
  · rw [effectiveScore, hwh]; ring
  · rw [effectiveScore, hw2h]; ring
  · rw [effectiveScore, effectiveScore, hwh, hw0]
    exact mul_lt_mul_of_pos_left (by norm_num) hs
  · rw [effectiveScore, effectiveScore, hwh, hw2h]
    exact mul_lt_mul_of_pos_left (by norm_num) hs

/-- Witness for `effective_score_decay` at `s = 1`, `h = 1`, ages 0 < 1. -/
theorem effective_score_decay_witness :
    (0:ℝ) < 1 ∧ (1:ℕ) ≤ 1 ∧ (0:ℝ) < 1 ∧
    (effectiveScore 1 1 1 < effectiveScore 1 0 1 ∧
     effectiveScore 1 0 1 = 1 ∧
     effectiveScore 1 ((1:ℕ) : ℝ) 1 = 1 / 2 ∧
     effectiveScore 1 (2 * ((1:ℕ) : ℝ)) 1 = 1 / 4 ∧
     effectiveScore 1 ((1:ℕ) : ℝ) 1 < effectiveScore 1 0 1 ∧
     effectiveScore 1 (2 * ((1:ℕ) : ℝ)) 1 < effectiveScore 1 ((1:ℕ) : ℝ) 1) :=
  ⟨zero_lt_one, le_refl 1, zero_lt_one,
   effective_score_decay 1 0 1 1 zero_lt_one (le_refl 1) zero_lt_one⟩

/-! ### C5: fairness of the interleaved public queue -/

/-- A list of length 4 is literally a 4-element list. -/
theorem list_len4 {α : Type} {l : List α} (h : l.length = 4) :
    ∃ x1 x2 x3 x4 : α, l = [x1, x2, x3, x4] := by
  match l, h with
  | [x1, x2, x3, x4], _ => exact ⟨x1, x2, x3, x4, rfl⟩

/-- A permutation of a two-element list is one of its two arrangements. -/
theorem perm_pair {α : Type} {x y : α} {l : List α} (h : l.Perm [x, y]) :
    l = [x, y] ∨ l = [y, x] := by
  have hlen : l.length = 2 := by simpa using h.length_eq
  obtain ⟨u, t, rfl⟩ : ∃ u t, l = u :: t := by
    cases l with
    | nil => simp at hlen
    | cons u t => exact ⟨u, t, rfl⟩
  obtain ⟨v, t2, rfl⟩ : ∃ v t2, t = v :: t2 := by
    cases t with
    | nil => simp at hlen
    | cons v t2 => exact ⟨v, t2, rfl⟩
  have ht2 : t2 = [] := by
    cases t2 with
    | nil => rfl
    | cons w t3 => simp at hlen
  subst ht2
  have hx : x ∈ [u, v] := h.mem_iff.mpr (by simp)
  rw [List.mem_cons, List.mem_singleton] at hx
  rcases hx with hx | hx
  · subst hx
    left
    have h1 := (List.perm_cons x).mp h
    have h2 := List.perm_singleton.mp h1
    simp [h2]
  · have hy : y ∈ [u, v] := h.mem_iff.mpr (by simp)
    rw [List.mem_cons, List.mem_singleton] at hy
    rcases hy with hy | hy
    · subst hy
      right
      simp [hx]
    · left
      rw [hx] at h ⊢
      rw [hy] at h ⊢
      have hu : u ∈ [v, v] := h.mem_iff.mp (by simp)
      rw [List.mem_cons, List.mem_singleton] at hu
      rcases hu with hu | hu <;> simp [hu]

/-- C5: with exactly two present listeners `a ≠ b`, `slotsPerUser = 4`, and
a scorer that returns 4 slots (owned by the requesting user) on every call,
the interleaved public queue has length 4 and contains exactly 2 slots
owned by `a` and 2 owned by `b` — for every random ordering the interleave
may shuffle the listeners into. -/
theorem fairness_two_listeners (a b : Nat) (hasPrefs : Nat → Bool)
    (scorer : Nat → List String → List Slot) (orderPub orderHid : List Nat)
    (hab : a ≠ b) (hpa : hasPrefs a = true) (hpb : hasPrefs b = true)
    (hlen : ∀ u used, (scorer u used).length = 4)
    (howner : ∀ u used s, s ∈ scorer u used → s.user_id = u)
    (hperm : orderPub.Perm [a, b]) :
    ((allocateQueue 4 hasPrefs scorer [a, b] orderPub orderHid).1).length = 4 ∧
    (((allocateQueue 4 hasPrefs scorer [a, b] orderPub orderHid).1).filter
      (fun s => s.user_id == a)).length = 2 ∧
    (((allocateQueue 4 hasPrefs scorer [a, b] orderPub orderHid).1).filter
      (fun s => s.user_id == b)).length = 2 := by
  obtain ⟨a1, a2, a3, a4, hA⟩ := list_len4 (hlen a [])
  obtain ⟨b1, b2, b3, b4, hB⟩ := list_len4
    (hlen b (([a1, a2, a3, a4].foldl (fun acc s => insertUrl acc s.url) [])))
  have ha1u : a1.user_id = a := howner a [] a1 (by rw [hA]; simp)
  have ha2u : a2.user_id = a := howner a [] a2 (by rw [hA]; simp)
  have hb1u : b1.user_id = b := howner b _ b1 (by rw [hB]; simp)
  have hb2u : b2.user_id = b := howner b _ b2 (by rw [hB]; simp)
  have hba : (b == a) = false := by simp [Ne.symm hab]
  have hab' : (a == b) = false := by simp [hab]
  have hbuild : buildAlloc 4 hasPrefs scorer [a, b] [] =
      ([(a, [a1, a2]), (b, [b1, b2])], [(a, [a3, a4]), (b, [b3, b4])]) := by
    simp only [buildAlloc, hpa, hpb, Bool.not_true, Bool.false_eq_true,
      if_false, hA]
    simp only [List.isEmpty_cons, Bool.false_eq_true, if_false, hB]
    simp
  have hqueue : ∀ ord, ord = [a, b] ∨ ord = [b, a] →
      (allocateQueue 4 hasPrefs scorer [a, b] ord orderHid).1 = [a1, b1, a2, b2] ∨
      (allocateQueue 4 hasPrefs scorer [a, b] ord orderHid).1 = [b1, a1, b2, a2] := by
    intro ord hord
    rcases hord with rfl | rfl
    · left
      simp only [allocateQueue, hbuild]
      simp [interleaveSlots, List.find?, hab', hba, List.range_succ]
    · right
      simp only [allocateQueue, hbuild]
      simp [interleaveSlots, List.find?, hab', hba, List.range_succ]
  rcases hqueue orderPub (perm_pair hperm) with hq | hq <;>
    rw [hq] <;>
    simp [List.filter, ha1u, ha2u, hb1u, hb2u, hab', hba]

/-- Scorer used by the fairness witness: four fixed slots owned by the
requesting user. -/
def witnessScorer (u : Nat) (_used : List String) : List Slot :=
  [{ artist := "ar", song := "s1", url := "u1", user_id := u,
     slot_type := "comfort", reason := "r" },
   { artist := "ar", song := "s2", url := "u2", user_id := u,
     slot_type := "comfort", reason := "r" },
   { artist := "ar", song := "s3", url := "u3", user_id := u,
     slot_type := "adjacent", reason := "r" },
   { artist := "ar", song := "s4", url := "u4", user_id := u,
     slot_type := "wildcard", reason := "r" }]

/-- Witness for `fairness_two_listeners`: listeners 1 and 2, shuffled
public order `[2, 1]`. -/
theorem fairness_two_listeners_witness :
    (1 : Nat) ≠ 2 ∧
    (((allocateQueue 4 (fun _ => true) witnessScorer [1, 2] [2, 1] [1, 2]).1).length = 4 ∧
    (((allocateQueue 4 (fun _ => true) witnessScorer [1, 2] [2, 1] [1, 2]).1).filter
      (fun s => s.user_id == 1)).length = 2 ∧
    (((allocateQueue 4 (fun _ => true) witnessScorer [1, 2] [2, 1] [1, 2]).1).filter
      (fun s => s.user_id == 2)).length = 2) :=
  ⟨by decide,
   fairness_two_listeners 1 2 (fun _ => true) witnessScorer [2, 1] [1, 2]
     (by decide) rfl rfl (fun _ _ => rfl)
     (by
       intro u used s hs
       simp only [witnessScorer, List.mem_cons, List.not_mem_nil, or_false] at hs
       rcases hs with rfl | rfl | rfl | rfl <;> rfl)
     (by decide)⟩

end Vexo
